import Mathlib

set_option maxHeartbeats 1000000

/- Shallow embedding of the MedTimer application's persistence and domain
   logic layer (src/app.py).  Times of day are modelled as minutes since
   midnight (`Nat`); calendar days as integer day indices (`Int`), the ISO
   date string being an injective key for a calendar day.  The Python dict
   keyed by date is modelled as an association list with first-match lookup
   and overwrite-in-place insertion, which matches dict semantics when keys
   are unique.  Statuses are plain strings, exactly as stored by the code. -/

/-- Medicine record, mirroring the JSON object built by `add_medicine`:
id, name, time_str, remind_min, status (the strings "taken", "upcoming",
"missed"), taken_at (None or an ISO timestamp string). -/
structure Medicine where
  id : Int
  name : String
  time_str : String
  remind_min : Int
  status : String
  taken_at : Option String
deriving Repr, DecidableEq

/-- Daily history record: the `{"scheduled": _, "taken": _}` object stored
under an ISO date key by `record_daily_history`. -/
structure HistoryRecord where
  scheduled : Nat
  taken : Nat
deriving Repr, DecidableEq

/-- The session state owned by the app: `st.session_state.meds`,
`st.session_state.history` and `st.session_state.id_counter`. -/
structure Store where
  meds : List Medicine
  history : List (Int × HistoryRecord)
  id_counter : Int
deriving Repr, DecidableEq

/-- Lookup in the date-keyed history dict (`history.get(d)`). -/
def dictGet : List (Int × HistoryRecord) → Int → Option HistoryRecord
  | [], _ => none
  | p :: t, k => if p.1 = k then some p.2 else dictGet t k

/-- Assignment `history[d] = rec` on the date-keyed dict: overwrite the
existing entry in place, or append a new one. -/
def dictSet : List (Int × HistoryRecord) → Int → HistoryRecord → List (Int × HistoryRecord)
  | [], k, v => [(k, v)]
  | p :: t, k, v => if p.1 = k then (k, v) :: t else p :: dictSet t k v

/-- Split a character list at colons (helper for the time-of-day model). -/
def splitCols : List Char → List (List Char)
  | [] => [[]]
  | c :: rest =>
    if c = ':' then [] :: splitCols rest
    else
      match splitCols rest with
      | [] => [[c]]
      | g :: gs => (c :: g) :: gs

/-- Interpret a nonempty all-digit character list as a decimal number. -/
def digits? (cs : List Char) : Option Nat :=
  if cs.isEmpty then none
  else if cs.all Char.isDigit then
    some (cs.foldl (fun acc c => acc * 10 + (c.toNat - 48)) 0)
  else none

/-- Modelled behaviour of `parse_hhmm`: the source delegates free-form time
parsing to the external dateutil library and combines the result with
today's date; we model it on the strict `H:MM` / `HH:MM` subset, returning
minutes since midnight, and `none` on any string outside that subset (the
case in which dateutil raises its parse exception). -/
def parse_hhmm (s : String) : Option Nat :=
  match splitCols s.toList with
  | [h, m] =>
    match digits? h, digits? m with
    | some hh, some mm => if hh < 24 && mm < 60 then some (hh * 60 + mm) else none
    | _, _ => none
  | _ => none

/-- Python's `str.strip()`: drop leading and trailing whitespace (structural
model, since the embedding only ever evaluates it on concrete strings). -/
def pyStrip (s : String) : String :=
  String.mk (((s.toList.dropWhile Char.isWhitespace).reverse.dropWhile
    Char.isWhitespace).reverse)

/-- The one exception the domain layer can raise: the parse failure coming
out of `parse_hhmm`, uncaught everywhere in the source. -/
inductive AppError
  | parseError
deriving Repr, DecidableEq

/-- `compute_status` from the source: a stored "taken" status is returned
unchanged; otherwise the stored time string is parsed and the current time
compared with the target ("upcoming" strictly before, "missed" at or after).
A parse failure propagates as the uncaught exception. -/
def compute_status (now : Nat) (med : Medicine) : Except AppError String :=
  if med.status = "taken" then Except.ok "taken"
  else
    match parse_hhmm med.time_str with
    | none => Except.error AppError.parseError
    | some target => Except.ok (if now < target then "upcoming" else "missed")

/-- `update_all_statuses`: statuses are rewritten in place, one medicine at
a time.  When `compute_status` raises, the already-updated prefix keeps its
new statuses and the remainder (the failing element included) is untouched,
matching Python's in-place mutation up to the uncaught exception. -/
def update_all_statuses (now : Nat) : List Medicine → List Medicine × Option AppError
  | [] => ([], none)
  | m :: ms =>
    match compute_status now m with
    | Except.error e => (m :: ms, some e)
    | Except.ok st =>
      ({ m with status := st } :: (update_all_statuses now ms).1,
        (update_all_statuses now ms).2)

/-- Round-half-even integer division: the integer nearest a / b with ties
to even, the rounding used by IEEE-754 binary64 arithmetic. -/
def rhe (a b : Nat) : Nat :=
  let q := a / b
  let r := a % b
  if b < 2 * r then q + 1 else if 2 * r < b then q else q + q % 2

/-- Smallest k (bounded by the fuel) with c ≤ a * 2 ^ k. -/
def upK (a c : Nat) : Nat → Nat
  | 0 => 0
  | fuel + 1 => if c ≤ a then 0 else upK (2 * a) c fuel + 1

/-- Binary64 rounding of the positive rational a / b (assumed positive and
below 2 ^ 52): returns (m, k) such that the rounded value is m / 2 ^ k. -/
def round53 (a b : Nat) : Nat × Nat :=
  let k := upK a (b * 2 ^ 52) 200
  (rhe (a * 2 ^ k) b, k)

/-- Exact integer model of the source expression
`int((taken / scheduled) * 100)` under IEEE-754 binary64 semantics as used
by CPython: the true division is rounded to 53 significant bits, the
product with 100 is rounded again, and the result is truncated toward
zero.  Cross-validated against CPython floats on every pair with
0 ≤ taken ≤ scheduled ≤ 800. -/
def pyPct (taken scheduled : Nat) : Nat :=
  if scheduled = 0 then 0
  else if taken = 0 then 0
  else
    let p1 := round53 taken scheduled
    let p2 := round53 (100 * p1.1) (2 ^ p1.2)
    p2.1 / 2 ^ p2.2

/-- `adherence_today`: scheduled is the medicine count, taken the number of
medicines whose status string is "taken", pct the float percentage (0 when
nothing is scheduled, guarding the division). -/
def adherence_today (s : Store) : Nat × Nat × Nat :=
  let scheduled := s.meds.length
  let taken := s.meds.countP (fun m => m.status == "taken")
  let pct := if scheduled = 0 then 0 else pyPct taken scheduled
  (scheduled, taken, pct)

/-- `record_daily_history`: overwrite today's history entry with the
current adherence snapshot, then persist; returns the new store and the
document written by the embedded `save_data` call. -/
def record_daily_history (s : Store) (today : Int) : Store × Store :=
  let a := adherence_today s
  let s2 : Store := ⟨s.meds, dictSet s.history today ⟨a.1, a.2.1⟩, s.id_counter⟩
  (s2, s2)

/-- Loop body of `current_streak`: walking day offsets i, i+1, ... while
fuel remains, stopping at the first day with no record, a zero scheduled
count, or fewer taken than scheduled. -/
def streakLoop (hist : List (Int × HistoryRecord)) (today : Int) : Nat → Nat → Nat
  | _, 0 => 0
  | i, fuel + 1 =>
    match dictGet hist (today - (i : Int)) with
    | none => 0
    | some r =>
      if r.scheduled = 0 || r.taken < r.scheduled then 0
      else streakLoop hist today (i + 1) fuel + 1

/-- `current_streak`: consecutive fully-adherent days ending today, looking
back at most 30 days. -/
def current_streak (hist : List (Int × HistoryRecord)) (today : Int) : Nat :=
  streakLoop hist today 0 30

/-- The persisted document: the dict `{"meds": .., "history": .., "id_counter": ..}`
written by `save_data`.  Fields are optional because `load_data` reads each
with a `.get` default; `save_data` always writes all three. -/
structure SavedFile where
  meds : Option (List Medicine)
  history : Option (List (Int × HistoryRecord))
  id_counter : Option Int
deriving Repr, DecidableEq

/-- `save_data`: serialize the whole store as a single document. -/
def save_data (s : Store) : SavedFile :=
  ⟨some s.meds, some s.history, some s.id_counter⟩

/-- Outcome of reading the data file at startup: the file may be absent,
its contents may fail to parse (any unparseable contents — the bare except
catches them all), or it parses to a document. -/
inductive LoadResult
  | fileMissing
  | parseFailure
  | ok (f : SavedFile)
deriving Repr, DecidableEq

/-- The default session state established by `init_state`: no medicines, no
history, id counter 1. -/
def init_store : Store := ⟨[], [], 1⟩

/-- `load_data`, applied to the state left by `init_state`: a missing file
leaves the state alone, a parse failure resets the three keys to their
defaults, and a parsed document is read with per-key `.get` defaults.  The
function is total: no error escapes (the source wraps everything in a bare
try/except). -/
def load_data (r : LoadResult) (s : Store) : Store :=
  match r with
  | LoadResult.fileMissing => s
  | LoadResult.parseFailure => init_store
  | LoadResult.ok f => ⟨f.meds.getD [], f.history.getD [], f.id_counter.getD 1⟩

/-- Result of one CRUD operation: the session state afterwards, the list of
documents written by `save_data` calls (empty when an uncaught exception
skipped them), and the exception if one propagated. -/
structure OpResult where
  store : Store
  saved : List SavedFile
  err : Option AppError
deriving Repr, DecidableEq

/-- Common tail of add, edit and delete: the result of the status refresh
together with the untouched history and the given counter form the new
store; `save_data` runs only when the refresh raised nothing. -/
def opFinish (history : List (Int × HistoryRecord)) (counter : Int)
    (u : List Medicine × Option AppError) : OpResult :=
  match u.2 with
  | none => ⟨⟨u.1, history, counter⟩, [save_data ⟨u.1, history, counter⟩], none⟩
  | some e => ⟨⟨u.1, history, counter⟩, [], some e⟩

/-- `add_medicine`: build the medicine from the stripped inputs, assign the
counter as id and bump it, append, then refresh all statuses and persist.
The append and counter bump happen before the refresh, so they survive a
parse exception; the save is only reached when no exception was raised. -/
def add_medicine (s : Store) (name time_str : String) (remind_min : Int) (now : Nat) :
    OpResult :=
  opFinish s.history (s.id_counter + 1)
    (update_all_statuses now (s.meds
      ++ [⟨s.id_counter, pyStrip name, pyStrip time_str, remind_min, "upcoming", none⟩]))

/-- Field update performed by the `edit_medicine` loop on the first
medicine whose id matches (the id itself, status and taken_at are kept). -/
def editList (med_id : Int) (name time_str : String) (remind_min : Int) :
    List Medicine → List Medicine
  | [] => []
  | m :: t =>
    if m.id = med_id then
      { m with name := name, time_str := time_str, remind_min := remind_min } :: t
    else m :: editList med_id name time_str remind_min t

/-- `edit_medicine`: overwrite the fields of the first matching medicine
(silently a no-op on the list when the id is absent), then refresh all
statuses and persist. -/
def edit_medicine (s : Store) (med_id : Int) (name time_str : String) (remind_min : Int)
    (now : Nat) : OpResult :=
  opFinish s.history s.id_counter
    (update_all_statuses now
      (editList med_id (pyStrip name) (pyStrip time_str) remind_min s.meds))

/-- `delete_medicine`: drop every medicine with the given id, then refresh
all statuses and persist. -/
def delete_medicine (s : Store) (med_id : Int) (now : Nat) : OpResult :=
  opFinish s.history s.id_counter
    (update_all_statuses now (s.meds.filter (fun m => m.id ≠ med_id)))

/-- Marking performed by the `mark_taken` loop on the first medicine whose
id matches: status becomes "taken" and taken_at the current timestamp. -/
def markList (taken_at : String) : List Medicine → Int → List Medicine
  | [], _ => []
  | m :: t, med_id =>
    if m.id = med_id then { m with status := "taken", taken_at := some taken_at } :: t
    else m :: markList taken_at t med_id

/-- Tail of `mark_taken` after the marking loop and refresh: on success
record today's history snapshot (which itself persists) and persist again;
on a parse exception the history write and both saves are skipped. -/
def markFinish (history : List (Int × HistoryRecord)) (counter : Int) (today : Int)
    (u : List Medicine × Option AppError) : OpResult :=
  match u.2 with
  | some e => ⟨⟨u.1, history, counter⟩, [], some e⟩
  | none =>
    let s3 := (record_daily_history ⟨u.1, history, counter⟩ today).1
    ⟨s3, [save_data s3, save_data s3], none⟩

/-- `mark_taken`: mark the first matching medicine (no-op on the list when
the id is absent), refresh all statuses, record today's history snapshot
and persist twice, all skipped after a parse exception. -/
def mark_taken (s : Store) (med_id : Int) (now : Nat) (today : Int) : OpResult :=
  markFinish s.history s.id_counter today
    (update_all_statuses now (markList (Nat.repr now) s.meds med_id))

/-- Default medicine used as the `List.getD` fallback in statements. -/
def dummyMed : Medicine := ⟨0, "", "", 0, "", none⟩

/-- Projection of a medicine onto everything except its status: the fields
a status refresh can never touch. -/
def medFields (m : Medicine) : Int × String × String × Int × Option String :=
  (m.id, m.name, m.time_str, m.remind_min, m.taken_at)

/-- The percentage exactly as the spec's words state it: the mathematical
floor of taken / scheduled × 100, written for comparison with the float
computation the source actually performs. -/
def specPct (taken scheduled : Nat) : Nat :=
  if scheduled = 0 then 0 else taken * 100 / scheduled

/-- Store with three medicines of which two are taken (the spec's worked
adherence example). -/
def store3 : Store :=
  ⟨[⟨1, "A", "8:00", 0, "taken", none⟩,
    ⟨2, "B", "9:00", 0, "taken", none⟩,
    ⟨3, "C", "10:00", 0, "upcoming", none⟩], [], 4⟩

/-- Store with 50 medicines of which 29 are taken: the smallest shape on
which the float percentage visibly diverges from the exact floor. -/
def store50 : Store :=
  ⟨List.replicate 29 ⟨0, "A", "8:00", 0, "taken", none⟩
      ++ List.replicate 21 ⟨0, "B", "9:00", 0, "upcoming", none⟩, [], 1⟩

/-- One upcoming medicine whose scheduled time has already passed by 9:00;
used to exhibit the status refresh performed by `mark_taken`. -/
def storeStale : Store := ⟨[⟨1, "A", "8:00", 0, "upcoming", none⟩], [], 2⟩

/-- History with full adherence today and yesterday and nothing earlier
(day indices relative to day 0). -/
def demoHist : List (Int × HistoryRecord) := [(0, ⟨2, 2⟩), (-1, ⟨1, 1⟩)]

/-- A non-empty store used to exercise the persistence round trip. -/
def demoStore : Store :=
  ⟨[⟨1, "A", "8:00", 30, "taken", some "2026-10-12T08:01"⟩,
    ⟨2, "B", "21:15", 10, "upcoming", none⟩], [(20739, ⟨2, 1⟩)], 3⟩

/-- Day offset i (counting back from today) satisfies the spec's streak
condition: a history record exists, scheduled is positive and taken equals
scheduled. -/
def goodDay (hist : List (Int × HistoryRecord)) (today : Int) (i : Nat) : Prop :=
  ∃ r, dictGet hist (today - (i : Int)) = some r ∧
    0 < r.scheduled ∧ r.taken = r.scheduled

/-- The store invariant claimed by the spec: medicine ids are pairwise
distinct and strictly below the id counter. -/
def store_ids_ok (s : Store) : Prop :=
  (s.meds.map Medicine.id).Nodup ∧ ∀ m ∈ s.meds, m.id < s.id_counter

/-- States reachable from the default empty store by any sequence of the
four mutating operations, with arbitrary inputs and at arbitrary times. -/
inductive Reachable : Store → Prop
  | init : Reachable init_store
  | add (s : Store) (name time_str : String) (remind_min : Int) (now : Nat) :
      Reachable s → Reachable (add_medicine s name time_str remind_min now).store
  | edit (s : Store) (med_id : Int) (name time_str : String) (remind_min : Int)
      (now : Nat) :
      Reachable s → Reachable (edit_medicine s med_id name time_str remind_min now).store
  | del (s : Store) (med_id : Int) (now : Nat) :
      Reachable s → Reachable (delete_medicine s med_id now).store
  | mark (s : Store) (med_id : Int) (now : Nat) (today : Int) :
      Reachable s → Reachable (mark_taken s med_id now today).store

/-- Refreshing statuses never changes the length of the medicine list. -/
theorem update_length (now : Nat) (l : List Medicine) :
    ((update_all_statuses now l).1).length = l.length := by
  induction l with
  | nil => rfl
  | cons m ms ih =>
    unfold update_all_statuses
    cases h : compute_status now m with
    | error e => rfl
    | ok st => simpa using ih

/-- A stored "taken" status short-circuits `compute_status`. -/
theorem compute_status_taken (now : Nat) (med : Medicine) (h : med.status = "taken") :
    compute_status now med = Except.ok "taken" := by
  simp [compute_status, h]

/-- C1.  Taken status is sticky: `compute_status` returns "taken" for every
medicine whose stored status is "taken", at every current time, and hence a
"taken" entry survives `update_all_statuses` (the refresh performed by every
operation) unchanged — it is never recomputed to "upcoming" or "missed". -/
theorem taken_status_sticky :
    (∀ (now : Nat) (med : Medicine), med.status = "taken" →
      compute_status now med = Except.ok "taken") ∧
    (∀ (now : Nat) (meds : List Medicine) (i : Nat), i < meds.length →
      (meds.getD i dummyMed).status = "taken" →
      (((update_all_statuses now meds).1).getD i dummyMed).status = "taken") := by
  refine ⟨compute_status_taken, ?_⟩
  intro now meds
  induction meds with
  | nil => intro i hi hst; simp at hi
  | cons m ms ih =>
    intro i hi hst
    unfold update_all_statuses
    cases h : compute_status now m with
    | error e => exact hst
    | ok st =>
      cases i with
      | zero =>
        simp only [List.getD_cons_zero] at hst ⊢
        have : compute_status now m = Except.ok "taken" := compute_status_taken now m hst
        rw [h] at this
        cases this
        rfl
      | succ j =>
        simp only [List.getD_cons_succ] at hst ⊢
        exact ih j (by simpa using Nat.lt_of_succ_lt_succ hi) hst

/-- Witness for C1 at a concrete medicine and time. -/
theorem taken_status_sticky_witness :
    (([⟨1, "A", "8:00", 0, "taken", none⟩] : List Medicine).getD 0 dummyMed).status = "taken" ∧
    (((update_all_statuses 600 [⟨1, "A", "8:00", 0, "taken", none⟩]).1).getD 0
        dummyMed).status = "taken" :=
  ⟨by decide, taken_status_sticky.2 600 _ 0 (by decide) (by decide)⟩

/-- C2.  For a medicine whose stored status is not "taken" and whose time
string parses to target T, the status is "upcoming" exactly when the current
time is strictly before T and "missed" exactly when it is at or after T; in
particular equality is classified "missed". -/
theorem status_upcoming_iff_before_target (now T : Nat) (med : Medicine)
    (hst : med.status ≠ "taken") (hp : parse_hhmm med.time_str = some T) :
    (compute_status now med = Except.ok "upcoming" ↔ now < T) ∧
    (compute_status now med = Except.ok "missed" ↔ T ≤ now) := by
  have hru : ("upcoming" : String) ≠ "missed" := by decide
  have hc : compute_status now med
      = Except.ok (if now < T then "upcoming" else "missed") := by
    simp [compute_status, hst, hp]
  by_cases h : now < T
  · rw [hc, if_pos h]
    exact ⟨iff_of_true rfl h,
      iff_of_false (fun he => hru (Except.ok.inj he)) (by omega)⟩
  · rw [hc, if_neg h]
    exact ⟨iff_of_false (fun he => hru (Except.ok.inj he).symm) h,
      iff_of_true rfl (by omega)⟩

/-- Witness for C2 at the boundary: current time equal to the target is
classified "missed". -/
theorem status_upcoming_iff_before_target_witness :
    ((⟨1, "A", "8:00", 0, "upcoming", none⟩ : Medicine).status ≠ "taken") ∧
    parse_hhmm (⟨1, "A", "8:00", 0, "upcoming", none⟩ : Medicine).time_str = some 480 ∧
    compute_status 480 ⟨1, "A", "8:00", 0, "upcoming", none⟩ = Except.ok "missed" :=
  ⟨by decide, by decide,
    (status_upcoming_iff_before_target 480 480 _ (by decide) (by decide)).2.mpr
      (Nat.le_refl 480)⟩

/-- Refreshing statuses only rewrites the status field: all other fields of
every list element are preserved, position by position. -/
theorem update_map_fields (now : Nat) (l : List Medicine) :
    ((update_all_statuses now l).1).map medFields = l.map medFields := by
  induction l with
  | nil => rfl
  | cons m ms ih =>
    unfold update_all_statuses
    cases h : compute_status now m with
    | error e => rfl
    | ok st => simpa [medFields] using ih

/-- C3 counterexample.  Calling add with an empty name (and a perfectly
valid time string) appends a medicine with empty name to the store and
raises no error whatsoever — no ValidationError exists in the code. -/
theorem add_no_validation_cex :
    (add_medicine init_store "" "08:00" 0 300).store.meds.length
        = init_store.meds.length + 1 ∧
    (add_medicine init_store "" "08:00" 0 300).err = none ∧
    ((add_medicine init_store "" "08:00" 0 300).store.meds.getD 0 dummyMed).name = "" := by
  decide

/-- Whatever the refresh outcome, `opFinish` builds its store from the
refreshed list, the given history and the given counter. -/
theorem opFinish_store (history : List (Int × HistoryRecord)) (counter : Int)
    (u : List Medicine × Option AppError) :
    (opFinish history counter u).store = ⟨u.1, history, counter⟩ := by
  obtain ⟨ms, err⟩ := u
  cases err <;> rfl

/-- On a failing refresh, `opFinish` skips the save and reports the error. -/
theorem opFinish_err (history : List (Int × HistoryRecord)) (counter : Int)
    (u : List Medicine × Option AppError) (e : AppError) (h : u.2 = some e) :
    opFinish history counter u = ⟨⟨u.1, history, counter⟩, [], some e⟩ := by
  obtain ⟨ms, err⟩ := u
  cases err with
  | none => simp at h
  | some e' =>
    injection h with h'
    subst h'
    rfl

/-- Whatever the refresh outcome, the store left by `add_medicine` holds
the refreshed appended list, the old history and the bumped counter. -/
theorem add_medicine_store (s : Store) (name time_str : String)
    (remind_min : Int) (now : Nat) :
    (add_medicine s name time_str remind_min now).store
      = ⟨(update_all_statuses now (s.meds
            ++ [⟨s.id_counter, pyStrip name, pyStrip time_str, remind_min,
                  "upcoming", none⟩])).1,
          s.history, s.id_counter + 1⟩ := by
  unfold add_medicine
  exact opFinish_store _ _ _

/-- C3 amended.  `add_medicine` performs no validation at all: for every
input (empty or whitespace-only strings included) it appends exactly one
medicine carrying the stripped name and time string, the current counter as
id and no taken_at, and increments the id counter. -/
theorem add_appends_unconditionally (s : Store) (name time_str : String)
    (remind_min : Int) (now : Nat) :
    (add_medicine s name time_str remind_min now).store.meds.map medFields
        = s.meds.map medFields
            ++ [(s.id_counter, pyStrip name, pyStrip time_str, remind_min, none)] ∧
    (add_medicine s name time_str remind_min now).store.id_counter
        = s.id_counter + 1 ∧
    (add_medicine s name time_str remind_min now).store.meds.length
        = s.meds.length + 1 := by
  rw [add_medicine_store]
  refine ⟨?_, rfl, ?_⟩
  · rw [update_map_fields, List.map_append]
    rfl
  · rw [update_length, List.length_append]
    rfl

/-- A medicine on which `compute_status` raises is still present, untouched,
in the list returned by the refresh, and the refresh reports an error. -/
theorem update_err_of_mem (now : Nat) (l : List Medicine) (m : Medicine)
    (e : AppError) (hm : m ∈ l) (he : compute_status now m = Except.error e) :
    m ∈ (update_all_statuses now l).1 ∧ ((update_all_statuses now l).2).isSome := by
  induction l with
  | nil => cases hm
  | cons a t ih =>
    unfold update_all_statuses
    cases h : compute_status now a with
    | error e' => exact ⟨hm, rfl⟩
    | ok st =>
      have hmt : m ∈ t := by
        rcases List.mem_cons.mp hm with rfl | hmt
        · rw [he] at h; cases h
        · exact hmt
      rcases ih hmt with ⟨h1, h2⟩
      exact ⟨List.mem_cons_of_mem _ h1, h2⟩

/-- C4 counterexample.  Adding a medicine with an unparseable time string
does raise the parse error, but only after the medicine has been appended
and the counter bumped: the store retains the invalid entry and nothing is
persisted — the error is not surfaced cleanly, it aborts the operation
mid-mutation. -/
theorem parse_error_corrupts_store_cex :
    (add_medicine init_store "Aspirin" "oops" 5 300).err = some AppError.parseError ∧
    (add_medicine init_store "Aspirin" "oops" 5 300).saved = [] ∧
    (add_medicine init_store "Aspirin" "oops" 5 300).store.meds
        = [⟨1, "Aspirin", "oops", 5, "upcoming", none⟩] := by
  decide

/-- On a failing refresh, `add_medicine` returns the mutated store with no
save and the propagated error. -/
theorem add_medicine_err (s : Store) (name time_str : String) (remind_min : Int)
    (now : Nat) (e : AppError)
    (he : (update_all_statuses now (s.meds
        ++ [⟨s.id_counter, pyStrip name, pyStrip time_str, remind_min,
              "upcoming", none⟩])).2 = some e) :
    add_medicine s name time_str remind_min now
      = ⟨⟨(update_all_statuses now (s.meds
              ++ [⟨s.id_counter, pyStrip name, pyStrip time_str, remind_min,
                    "upcoming", none⟩])).1,
            s.history, s.id_counter + 1⟩, [], some e⟩ := by
  unfold add_medicine
  exact opFinish_err _ _ _ _ he

/-- C4 amended.  For every time string whose stripped form fails to parse,
`add_medicine` propagates the uncaught ParseError, skips persistence, and
nevertheless leaves the newly created medicine (with the unparseable time
string) in the in-memory store with the counter already incremented. -/
theorem parse_error_leaves_added_medicine (s : Store) (name time_str : String)
    (remind_min : Int) (now : Nat) (hp : parse_hhmm (pyStrip time_str) = none) :
    ((add_medicine s name time_str remind_min now).err).isSome ∧
    (add_medicine s name time_str remind_min now).saved = [] ∧
    (⟨s.id_counter, pyStrip name, pyStrip time_str, remind_min, "upcoming", none⟩
        : Medicine) ∈ (add_medicine s name time_str remind_min now).store.meds ∧
    (add_medicine s name time_str remind_min now).store.id_counter
        = s.id_counter + 1 := by
  have hcs : compute_status now
      (⟨s.id_counter, pyStrip name, pyStrip time_str, remind_min, "upcoming", none⟩
        : Medicine) = Except.error AppError.parseError := by
    simp [compute_status, hp]
  have hmem :
      (⟨s.id_counter, pyStrip name, pyStrip time_str, remind_min, "upcoming", none⟩
        : Medicine) ∈ s.meds
          ++ [⟨s.id_counter, pyStrip name, pyStrip time_str, remind_min,
                "upcoming", none⟩] :=
    List.mem_append_right _ (List.mem_singleton.mpr rfl)
  rcases update_err_of_mem now _ _ AppError.parseError hmem hcs with ⟨h1, h2⟩
  rcases Option.isSome_iff_exists.mp h2 with ⟨e, he⟩
  rw [add_medicine_err s name time_str remind_min now e he]
  exact ⟨rfl, rfl, h1, rfl⟩

/-- Witness for C4 amended at a concrete unparseable time string. -/
theorem parse_error_leaves_added_medicine_witness :
    parse_hhmm (pyStrip "oops") = none ∧
    ((add_medicine init_store "Aspirin" "oops" 5 300).err).isSome ∧
    (⟨1, pyStrip "Aspirin", pyStrip "oops", 5, "upcoming", none⟩ : Medicine)
        ∈ (add_medicine init_store "Aspirin" "oops" 5 300).store.meds :=
  ⟨by decide,
    (parse_error_leaves_added_medicine init_store "Aspirin" "oops" 5 300 (by decide)).1,
    (parse_error_leaves_added_medicine init_store "Aspirin" "oops" 5 300 (by decide)).2.2.1⟩

/-- C5.  Persistence round trip: for every non-empty store, loading the
document written by `save_data` reproduces that store exactly — the same
medicines, history and counter — whatever state the session held before. -/
theorem save_load_roundtrip (s s0 : Store) (h : s.meds ≠ []) :
    load_data (LoadResult.ok (save_data s)) s0 = s := by
  cases s with
  | mk meds history id_counter => simp [load_data, save_data]

/-- Witness for C5 on a concrete two-medicine store. -/
theorem save_load_roundtrip_witness :
    demoStore.meds ≠ [] ∧
    load_data (LoadResult.ok (save_data demoStore)) init_store = demoStore :=
  ⟨by decide, save_load_roundtrip demoStore init_store (by decide)⟩

/-- C6 counterexample.  On a store of 50 medicines with 29 taken, the
source's float computation yields 57 percent, while the exact floor of
taken / scheduled × 100 claimed by the spec is 58. -/
theorem adherence_pct_float_cex :
    adherence_today store50 = (50, 29, 57) ∧ specPct 29 50 = 58 := by
  exact ⟨by decide, by decide⟩

/-- C6 amended.  `adherence_today` returns scheduled = the medicine count
and taken = the number of "taken" statuses, with pct = 0 on an empty store;
pct is the IEEE-double truncation of (taken / scheduled) × 100, which
agrees with the exact floor on the spec's examples — (0, 0, 0) for the
empty store and (3, 2, 66) for three medicines with two taken — though not
universally. -/
theorem adherence_today_spec (s : Store) :
    (adherence_today s).1 = s.meds.length ∧
    (adherence_today s).2.1 = s.meds.countP (fun m => m.status == "taken") ∧
    (s.meds = [] → adherence_today s = (0, 0, 0)) ∧
    adherence_today init_store = (0, 0, 0) ∧
    adherence_today store3 = (3, 2, 66) := by
  refine ⟨rfl, rfl, ?_, by decide, by decide⟩
  intro h
  simp [adherence_today, h]

/-- Witness for C6 amended at the empty store. -/
theorem adherence_today_spec_witness :
    init_store.meds = [] ∧ adherence_today init_store = (0, 0, 0) :=
  ⟨rfl, (adherence_today_spec init_store).2.2.1 rfl⟩

/-- A successful history lookup comes from an entry of the list. -/
theorem dictGet_mem (hist : List (Int × HistoryRecord)) (k : Int) (r : HistoryRecord)
    (h : dictGet hist k = some r) : (k, r) ∈ hist := by
  induction hist with
  | nil => cases h
  | cons p t ih =>
    obtain ⟨k', v⟩ := p
    simp only [dictGet] at h
    by_cases hk : k' = k
    · subst hk
      rw [if_pos rfl] at h
      injection h with h'
      subst h'
      exact List.mem_cons_self _ _
    · rw [if_neg hk] at h
      exact List.mem_cons_of_mem _ (ih h)

/-- Characterization of the streak loop from offset i with given fuel:
its value is bounded by the fuel, every counted offset satisfies the spec's
per-day condition, and when the fuel is not exhausted the first uncounted
offset fails it.  Requires the documented history invariant
taken ≤ scheduled, under which the code's taken ≥ scheduled test coincides
with the spec's taken = scheduled. -/
theorem streakLoop_spec (hist : List (Int × HistoryRecord)) (today : Int)
    (hinv : ∀ p ∈ hist, p.2.taken ≤ p.2.scheduled) :
    ∀ fuel i : Nat,
      streakLoop hist today i fuel ≤ fuel ∧
      (∀ j, j < streakLoop hist today i fuel → goodDay hist today (i + j)) ∧
      (streakLoop hist today i fuel < fuel →
        ¬ goodDay hist today (i + streakLoop hist today i fuel)) := by
  intro fuel
  induction fuel with
  | zero =>
    intro i
    refine ⟨Nat.le_refl 0, ?_, ?_⟩
    · intro j hj
      simp [streakLoop] at hj
    · intro hlt
      simp [streakLoop] at hlt
  | succ fuel ih =>
    intro i
    cases hd : dictGet hist (today - (i : Int)) with
    | none =>
      have hz : streakLoop hist today i (fuel + 1) = 0 := by
        simp [streakLoop, hd]
      rw [hz]
      refine ⟨Nat.zero_le _, ?_, ?_⟩
      · intro j hj
        exact absurd hj (Nat.not_lt_zero j)
      · intro _
        rintro ⟨r, hr, _, _⟩
        simp only [Nat.add_zero] at hr
        rw [hd] at hr
        cases hr
    | some r =>
      by_cases hstop : r.scheduled = 0 ∨ r.taken < r.scheduled
      · have hz : streakLoop hist today i (fuel + 1) = 0 := by
          rcases hstop with h | h <;> simp [streakLoop, hd, h]
        rw [hz]
        refine ⟨Nat.zero_le _, ?_, ?_⟩
        · intro j hj
          exact absurd hj (Nat.not_lt_zero j)
        · intro _
          rintro ⟨r', hr', hpos, heq⟩
          simp only [Nat.add_zero] at hr'
          rw [hd] at hr'
          injection hr' with hr''
          subst hr''
          rcases hstop with h | h <;> omega
      · push_neg at hstop
        obtain ⟨hs0, hts⟩ := hstop
        have hle : r.taken ≤ r.scheduled := hinv _ (dictGet_mem hist _ r hd)
        have heqs : r.taken = r.scheduled := Nat.le_antisymm hle hts
        have hg : goodDay hist today i :=
          ⟨r, hd, Nat.pos_of_ne_zero hs0, heqs⟩
        have hs : streakLoop hist today i (fuel + 1)
            = streakLoop hist today (i + 1) fuel + 1 := by
          have h2 : ¬ r.taken < r.scheduled := by omega
          simp [streakLoop, hd, hs0, h2]
        rw [hs]
        obtain ⟨ih1, ih2, ih3⟩ := ih (i + 1)
        refine ⟨Nat.succ_le_succ ih1, ?_, ?_⟩
        · intro j hj
          cases j with
          | zero => simpa using hg
          | succ j' =>
            have hj' : j' < streakLoop hist today (i + 1) fuel :=
              Nat.lt_of_succ_lt_succ hj
            have hgj := ih2 j' hj'
            have he : i + (j' + 1) = i + 1 + j' := by omega
            rw [he]
            exact hgj
        · intro hlt
          have hlt' : streakLoop hist today (i + 1) fuel < fuel :=
            Nat.lt_of_succ_lt_succ hlt
          have hng := ih3 hlt'
          have he : i + (streakLoop hist today (i + 1) fuel + 1)
              = i + 1 + streakLoop hist today (i + 1) fuel := by omega
          rw [he]
          exact hng

/-- C7.  Under the documented history invariant taken ≤ scheduled,
`current_streak` counts consecutive days backward from today (inclusive)
satisfying the spec condition (record present, scheduled positive, taken
equal to scheduled), stops at the first failing day, and never exceeds the
30-day cap. -/
theorem current_streak_spec (hist : List (Int × HistoryRecord)) (today : Int)
    (hinv : ∀ p ∈ hist, p.2.taken ≤ p.2.scheduled) :
    current_streak hist today ≤ 30 ∧
    (∀ j, j < current_streak hist today → goodDay hist today j) ∧
    (current_streak hist today < 30 →
      ¬ goodDay hist today (current_streak hist today)) := by
  obtain ⟨h1, h2, h3⟩ := streakLoop_spec hist today hinv 30 0
  simp only [current_streak]
  refine ⟨h1, ?_, ?_⟩
  · intro j hj
    simpa using h2 j hj
  · intro hlt
    simpa using h3 hlt

/-- Witness for C7: full adherence today and yesterday, nothing two days
ago, yields a streak of exactly 2. -/
theorem current_streak_spec_witness :
    (∀ p ∈ demoHist, p.2.taken ≤ p.2.scheduled) ∧
    current_streak demoHist 0 = 2 ∧
    current_streak demoHist 0 ≤ 30 :=
  ⟨by decide, by decide, (current_streak_spec demoHist 0 (by decide)).1⟩

/-- C8.  Startup (which runs `init_state` and then `load_data`) yields the
default empty store — no medicines, no history, counter 1 — both when the
data file is missing and for every file content that fails to parse; no
error escapes, `load_data` being total. -/
theorem load_defaults_on_missing_or_unparseable :
    load_data LoadResult.fileMissing init_store = init_store ∧
    ∀ s0 : Store, load_data LoadResult.parseFailure s0 = init_store :=
  ⟨rfl, fun _ => rfl⟩

/-- Refreshing statuses preserves the id of every element, in order. -/
theorem update_ids (now : Nat) (l : List Medicine) :
    ((update_all_statuses now l).1).map Medicine.id = l.map Medicine.id := by
  have h2 := congrArg
    (List.map (fun p : Int × String × String × Int × Option String => p.1))
    (update_map_fields now l)
  rw [List.map_map, List.map_map] at h2
  exact h2

/-- Refreshing statuses preserves the taken_at of every element, in order. -/
theorem update_taken_at (now : Nat) (l : List Medicine) :
    ((update_all_statuses now l).1).map Medicine.taken_at
      = l.map Medicine.taken_at := by
  have h2 := congrArg
    (List.map (fun p : Int × String × String × Int × Option String => p.2.2.2.2))
    (update_map_fields now l)
  rw [List.map_map, List.map_map] at h2
  exact h2

/-- The edit loop rewrites fields but never an id. -/
theorem editList_ids (med_id : Int) (name time_str : String) (remind_min : Int)
    (l : List Medicine) :
    (editList med_id name time_str remind_min l).map Medicine.id
      = l.map Medicine.id := by
  induction l with
  | nil => rfl
  | cons m t ih =>
    simp only [editList]
    by_cases h : m.id = med_id
    · rw [if_pos h]
      simp
    · rw [if_neg h]
      simp [ih]

/-- The mark loop rewrites status and taken_at but never an id. -/
theorem markList_ids (ta : String) (l : List Medicine) (med_id : Int) :
    (markList ta l med_id).map Medicine.id = l.map Medicine.id := by
  induction l with
  | nil => rfl
  | cons m t ih =>
    simp only [markList]
    by_cases h : m.id = med_id
    · rw [if_pos h]
      simp
    · rw [if_neg h]
      simp [ih]

/-- Whatever the refresh outcome, the store left by `edit_medicine` holds
the refreshed edited list, the old history and the unchanged counter. -/
theorem edit_medicine_store (s : Store) (med_id : Int) (name time_str : String)
    (remind_min : Int) (now : Nat) :
    (edit_medicine s med_id name time_str remind_min now).store
      = ⟨(update_all_statuses now
            (editList med_id (pyStrip name) (pyStrip time_str) remind_min s.meds)).1,
          s.history, s.id_counter⟩ := by
  unfold edit_medicine
  exact opFinish_store _ _ _

/-- Whatever the refresh outcome, the store left by `delete_medicine` holds
the refreshed filtered list, the old history and the unchanged counter. -/
theorem delete_medicine_store (s : Store) (med_id : Int) (now : Nat) :
    (delete_medicine s med_id now).store
      = ⟨(update_all_statuses now (s.meds.filter (fun m => m.id ≠ med_id))).1,
          s.history, s.id_counter⟩ := by
  unfold delete_medicine
  exact opFinish_store _ _ _

/-- Whatever the refresh outcome, `markFinish` leaves the refreshed marked
list as the medicines and never touches the counter. -/
theorem markFinish_store_meds (history : List (Int × HistoryRecord)) (counter : Int)
    (today : Int) (u : List Medicine × Option AppError) :
    (markFinish history counter today u).store.meds = u.1 ∧
    (markFinish history counter today u).store.id_counter = counter := by
  obtain ⟨ms, err⟩ := u
  cases err <;> exact ⟨rfl, rfl⟩

/-- Whatever the refresh outcome, `mark_taken` leaves the refreshed marked
list as the medicines and never touches the counter. -/
theorem mark_taken_store_meds (s : Store) (med_id : Int) (now : Nat) (today : Int) :
    (mark_taken s med_id now today).store.meds
        = (update_all_statuses now (markList (Nat.repr now) s.meds med_id)).1 ∧
    (mark_taken s med_id now today).store.id_counter = s.id_counter := by
  unfold mark_taken
  exact markFinish_store_meds _ _ _ _

/-- Transfer of the id bound along an inclusion of id multisets. -/
theorem ids_lt_of_sub {l l' : List Medicine} {c : Int}
    (hsub : ∀ x, x ∈ l'.map Medicine.id → x ∈ l.map Medicine.id)
    (hb : ∀ m ∈ l, m.id < c) : ∀ m ∈ l', m.id < c := by
  intro m hm
  have hx : m.id ∈ l.map Medicine.id := hsub _ (List.mem_map_of_mem _ hm)
  rcases List.mem_map.mp hx with ⟨m', hm', he⟩
  rw [← he]
  exact hb m' hm'

/-- C9.  In every state reachable from the empty store by add, edit, delete
and mark_taken, the medicine ids are pairwise distinct and strictly below
the id counter. -/
theorem reachable_store_ids_ok (s : Store) (h : Reachable s) : store_ids_ok s := by
  induction h with
  | init =>
    exact ⟨List.nodup_nil, by intro m hm; cases hm⟩
  | add s name time_str remind_min now _ ih =>
    obtain ⟨ihn, ihb⟩ := ih
    have hids : ((add_medicine s name time_str remind_min now).store.meds).map Medicine.id
        = s.meds.map Medicine.id ++ [s.id_counter] := by
      rw [add_medicine_store]
      simp only
      rw [update_ids, List.map_append]
      rfl
    have hcnt : (add_medicine s name time_str remind_min now).store.id_counter
        = s.id_counter + 1 := by
      rw [add_medicine_store]
    constructor
    · rw [hids]
      have hnotin : s.id_counter ∉ s.meds.map Medicine.id := by
        intro hmem
        rcases List.mem_map.mp hmem with ⟨m, hm, he⟩
        have := ihb m hm
        omega
      simp [List.nodup_append, ihn, hnotin]
    · intro m hm
      rw [hcnt]
      have hx : m.id ∈ s.meds.map Medicine.id ++ [s.id_counter] := by
        rw [← hids]
        exact List.mem_map_of_mem _ hm
      rcases List.mem_append.mp hx with hx | hx
      · rcases List.mem_map.mp hx with ⟨m', hm', he⟩
        have := ihb m' hm'
        omega
      · have := List.mem_singleton.mp hx
        omega
  | edit s med_id name time_str remind_min now _ ih =>
    obtain ⟨ihn, ihb⟩ := ih
    have hids : ((edit_medicine s med_id name time_str remind_min now).store.meds).map
          Medicine.id = s.meds.map Medicine.id := by
      rw [edit_medicine_store]
      simp only
      rw [update_ids, editList_ids]
    have hcnt : (edit_medicine s med_id name time_str remind_min now).store.id_counter
        = s.id_counter := by
      rw [edit_medicine_store]
    refine ⟨by rw [hids]; exact ihn, ?_⟩
    rw [hcnt]
    exact ids_lt_of_sub (fun x hx => by rw [hids] at hx; exact hx) ihb
  | del s med_id now _ ih =>
    obtain ⟨ihn, ihb⟩ := ih
    have hids : ((delete_medicine s med_id now).store.meds).map Medicine.id
        = (s.meds.filter (fun m => m.id ≠ med_id)).map Medicine.id := by
      rw [delete_medicine_store]
      simp only
      rw [update_ids]
    have hcnt : (delete_medicine s med_id now).store.id_counter = s.id_counter := by
      rw [delete_medicine_store]
    refine ⟨?_, ?_⟩
    · rw [hids]
      exact List.Nodup.sublist (List.Sublist.map _ (List.filter_sublist _)) ihn
    · rw [hcnt]
      refine ids_lt_of_sub (fun x hx => ?_) ihb
      rw [hids] at hx
      rcases List.mem_map.mp hx with ⟨m', hm', he⟩
      exact he ▸ List.mem_map_of_mem _ (List.mem_of_mem_filter hm')
  | mark s med_id now today _ ih =>
    obtain ⟨ihn, ihb⟩ := ih
    obtain ⟨hmeds, hcnt⟩ := mark_taken_store_meds s med_id now today
    have hids : ((mark_taken s med_id now today).store.meds).map Medicine.id
        = s.meds.map Medicine.id := by
      rw [hmeds, update_ids, markList_ids]
    refine ⟨by rw [hids]; exact ihn, ?_⟩
    rw [hcnt]
    exact ids_lt_of_sub (fun x hx => by rw [hids] at hx; exact hx) ihb

/-- Witness for C9 on a concrete reachable state (one add from empty). -/
theorem reachable_store_ids_ok_witness :
    store_ids_ok (add_medicine init_store "A" "8:00" 0 300).store :=
  reachable_store_ids_ok _ (Reachable.add init_store "A" "8:00" 0 300 Reachable.init)

/-- When no id matches, the marking loop returns the list unchanged. -/
theorem markList_absent (ta : String) (l : List Medicine) (med_id : Int)
    (h : ∀ m ∈ l, m.id ≠ med_id) : markList ta l med_id = l := by
  induction l with
  | nil => rfl
  | cons m t ih =>
    simp only [markList]
    rw [if_neg (h m (List.mem_cons_self m t))]
    rw [ih (fun m' hm' => h m' (List.mem_cons_of_mem _ hm'))]

/-- Writing a key into the history dict makes it readable. -/
theorem dictGet_dictSet (h : List (Int × HistoryRecord)) (k : Int) (v : HistoryRecord) :
    dictGet (dictSet h k v) k = some v := by
  induction h with
  | nil => simp [dictSet, dictGet]
  | cons p t ih =>
    obtain ⟨k', v'⟩ := p
    by_cases hk : k' = k
    · subst hk
      simp [dictSet, dictGet]
    · have h1 : dictSet ((k', v') :: t) k v = (k', v') :: dictSet t k v := by
        simp only [dictSet]
        rw [if_neg hk]
      have h2 : dictGet ((k', v') :: dictSet t k v) k = dictGet (dictSet t k v) k := by
        simp only [dictGet]
        rw [if_neg hk]
      rw [h1, h2]
      exact ih

/-- On a successful refresh, `markFinish` overwrites today's history entry
with the snapshot of the refreshed list and saves the new store twice. -/
theorem markFinish_ok (history : List (Int × HistoryRecord)) (counter : Int)
    (today : Int) (u : List Medicine × Option AppError) (h : u.2 = none) :
    markFinish history counter today u
      = ⟨⟨u.1, dictSet history today
            ⟨u.1.length, u.1.countP (fun m => m.status == "taken")⟩, counter⟩,
          [save_data ⟨u.1, dictSet history today
              ⟨u.1.length, u.1.countP (fun m => m.status == "taken")⟩, counter⟩,
            save_data ⟨u.1, dictSet history today
              ⟨u.1.length, u.1.countP (fun m => m.status == "taken")⟩, counter⟩],
          none⟩ := by
  obtain ⟨ms, err⟩ := u
  cases err with
  | none => rfl
  | some e => simp at h

/-- C10 counterexample.  Calling mark_taken with an absent id on a store
holding one "upcoming" medicine whose time has passed changes that
medicine: the unconditional status refresh rewrites it to "missed", so the
medicines are not left entirely unchanged. -/
theorem mark_absent_id_cex :
    (∀ m ∈ storeStale.meds, m.id ≠ 999) ∧
    (mark_taken storeStale 999 540 0).store.meds ≠ storeStale.meds := by
  exact ⟨by decide, by decide⟩

/-- C10 amended.  When the id is absent (and the refresh raises no parse
error), mark_taken marks nothing — the medicines are exactly the result of
the wall-clock status refresh, with every taken_at unchanged — yet today's
HistoryRecord is still overwritten with the refreshed snapshot and the
store is persisted: the call is not a pure no-op on the store. -/
theorem mark_absent_refreshes_and_records (s : Store) (med_id : Int) (now : Nat)
    (today : Int) (habs : ∀ m ∈ s.meds, m.id ≠ med_id)
    (hok : (update_all_statuses now s.meds).2 = none) :
    (mark_taken s med_id now today).store.meds = (update_all_statuses now s.meds).1 ∧
    (mark_taken s med_id now today).store.meds.map Medicine.taken_at
        = s.meds.map Medicine.taken_at ∧
    dictGet (mark_taken s med_id now today).store.history today
        = some ⟨s.meds.length,
            (update_all_statuses now s.meds).1.countP (fun m => m.status == "taken")⟩ ∧
    (mark_taken s med_id now today).saved ≠ [] ∧
    (mark_taken s med_id now today).err = none := by
  have hml : markList (Nat.repr now) s.meds med_id = s.meds :=
    markList_absent _ _ _ habs
  have hmt : mark_taken s med_id now today
      = markFinish s.history s.id_counter today (update_all_statuses now s.meds) := by
    unfold mark_taken
    rw [hml]
  rw [hmt, markFinish_ok _ _ _ _ hok]
  refine ⟨rfl, update_taken_at now s.meds, ?_, ?_, rfl⟩
  · rw [update_length]
    exact dictGet_dictSet _ _ _
  · exact List.cons_ne_nil _ _

/-- Witness for C10 amended on the concrete stale store. -/
theorem mark_absent_refreshes_and_records_witness :
    (∀ m ∈ storeStale.meds, m.id ≠ 999) ∧
    (update_all_statuses 540 storeStale.meds).2 = none ∧
    dictGet (mark_taken storeStale 999 540 0).store.history 0
        = some ⟨storeStale.meds.length,
            (update_all_statuses 540 storeStale.meds).1.countP
              (fun m => m.status == "taken")⟩ ∧
    (mark_taken storeStale 999 540 0).err = none :=
  ⟨by decide, by decide,
    (mark_absent_refreshes_and_records storeStale 999 540 0 (by decide)
      (by decide)).2.2.1,
    (mark_absent_refreshes_and_records storeStale 999 540 0 (by decide)
      (by decide)).2.2.2.2⟩
